import Mathlib

/-!
Verification of the buffer-lifecycle and atomic-commit subsystem of the
LatinIME ver4 dictionary format, embedded shallowly from
`native/jni/src/suggest/policyimpl/dictionary/structure/v4/ver4_dict_buffers.cpp`.

Paths are lists of characters (the C code works on `char*` strings).  The file
system is an association list from paths to entries.  OS primitives and helper
utilities (`FileUtils`, `DictFileWritingUtils`, `MmappedBuffer`, the content
sections and the header policy) are declared in headers outside the shown
source; they are modelled from the spec, with the spec-facing contracts
recorded in doc comments.  Failure of a file-system primitive is injected
through an explicit environment of booleans; a failed primitive is modelled as
having no effect on the file system (any partial effect of a real failed write
stays inside the temporary directory, which the claims never constrain).
-/

/-- A file-system path, as the list of characters of the C string. -/
abbrev FsPath := List Char

/-- Mirrors `FileUtils::getFilePathWithSuffix`: append a suffix to a path. -/
def getFilePathWithSuffix (p sfx : FsPath) : FsPath := p ++ sfx

/-- Mirrors `FileUtils::getBasename`: the characters after the last slash. -/
def getBasename (p : FsPath) : FsPath :=
  p.foldl (fun acc c => if c = '/' then [] else acc ++ [c]) []

/-- Mirrors `FileUtils::getFilePath`: join a directory path and a file name. -/
def getFilePath (dirPath fileName : FsPath) : FsPath := dirPath ++ "/".data ++ fileName

/-- Modelled from the spec: `DictFileWritingUtils::TEMP_FILE_SUFFIX_FOR_WRITING_DICT_FILE`
(declared outside the shown source), "a fixed suffix appended to the canonical
name"; the spec's scenario shows the dictionary at `/tmp/dict_a` staged at
`/tmp/dict_a.tmp`. -/
def TEMP_FILE_SUFFIX_FOR_WRITING_DICT_FILE : FsPath := ".tmp".data

/-- Modelled from the spec: `Ver4DictConstants::HEADER_FILE_EXTENSION`, the fixed
format-defined suffix of the header file. -/
def HEADER_FILE_EXTENSION : FsPath := ".header".data

/-- Modelled from the spec: `Ver4DictConstants::TRIE_FILE_EXTENSION`, the fixed
format-defined suffix of the trie file. -/
def TRIE_FILE_EXTENSION : FsPath := ".trie".data

/-- Modelled from the spec: the fixed suffix under which the terminal-position
lookup table serializes itself (its exact spelling is immaterial to the claims). -/
def TERMINAL_LOOKUP_TABLE_FILE_EXTENSION : FsPath := ".lookup".data

/-- Modelled from the spec: the fixed suffix of the probability content file. -/
def PROBABILITY_FILE_EXTENSION : FsPath := ".prob".data

/-- Modelled from the spec: the fixed suffix of the bigram content file. -/
def BIGRAM_FILE_EXTENSION : FsPath := ".bigram".data

/-- Modelled from the spec: the fixed suffix of the shortcut content file. -/
def SHORTCUT_FILE_EXTENSION : FsPath := ".shortcut".data

/-- Modelled from the spec: `BufferWithExtendableBuffer::DEFAULT_MAX_ADDITIONAL_BUFFER_SIZE`
(declared outside the shown source); the exact value is immaterial here. -/
def DEFAULT_MAX_ADDITIONAL_BUFFER_SIZE : Nat := 1024 * 1024

/-- Modelled from the spec: `Ver4DictConstants::MAX_DICTIONARY_SIZE` (declared
outside the shown source); the exact value is immaterial here. -/
def MAX_DICTIONARY_SIZE : Nat := 400 * 1024 * 1024

/-- Mirrors `MmappedBuffer`: a byte region mapped from a file, with its size and
whether the mapping was opened writable (`isUpdatable()`). -/
structure MmappedBuffer where
  buffer : List Nat
  bufferSize : Nat
  isUpdatable : Bool
deriving DecidableEq, Repr

/-- Mirrors `BufferWithExtendableBuffer` as far as its construction state is
concerned: the optional fixed base region handed to the bound constructor
(`nullptr` becomes `none`), the base length, and the maximum additional
(extension) capacity.  The unbound constructor takes only the capacity. -/
structure BufferWithExtendableBuffer where
  originalBuffer : Option (List Nat)
  originalBufferSize : Nat
  maxAdditionalBufferSize : Nat
deriving DecidableEq, Repr

/-- Mirrors the one-argument (unbound) `BufferWithExtendableBuffer` constructor:
no base region, base length zero, capacity only. -/
def BufferWithExtendableBuffer.unbound (maxSize : Nat) : BufferWithExtendableBuffer :=
  ⟨none, 0, maxSize⟩

/-- Mirrors the `HeaderPolicy` collaborator surface the shown code consumes:
`getSize()` and `hasHistoricalInfoOfWords()`. -/
structure HeaderPolicy where
  size : Nat
  hasHistoricalInfoOfWords : Bool
deriving DecidableEq, Repr

/-- Mirrors `TerminalPositionLookupTable` construction state: loaded from a
directory with an updatable flag, or default-constructed fresh. -/
inductive TerminalPositionLookupTable where
  | fromDir (dictPath : FsPath) (updatableFlag : Bool)
  | fresh
deriving DecidableEq, Repr

/-- Mirrors `ProbabilityDictContent` construction state: loaded from a directory
with the historical-info and updatable flags, or fresh with the historical flag. -/
inductive ProbabilityDictContent where
  | fromDir (dictPath : FsPath) (historicalFlag : Bool) (updatableFlag : Bool)
  | fresh (historicalFlag : Bool)
deriving DecidableEq, Repr

/-- Mirrors `BigramDictContent` construction state, same shape as the
probability content. -/
inductive BigramDictContent where
  | fromDir (dictPath : FsPath) (historicalFlag : Bool) (updatableFlag : Bool)
  | fresh (historicalFlag : Bool)
deriving DecidableEq, Repr

/-- Mirrors `ShortcutDictContent` construction state: loaded from a directory
with an updatable flag, or default-constructed fresh. -/
inductive ShortcutDictContent where
  | fromDir (dictPath : FsPath) (updatableFlag : Bool)
  | fresh
deriving DecidableEq, Repr

/-- Mirrors the member state of `Ver4DictBuffers` (the field initializer lists
of the two constructors populate exactly these members). -/
structure Ver4DictBuffers where
  mHeaderBuffer : Option MmappedBuffer
  mDictBuffer : Option MmappedBuffer
  mHeaderPolicy : HeaderPolicy
  mExpandableHeaderBuffer : BufferWithExtendableBuffer
  mExpandableTrieBuffer : BufferWithExtendableBuffer
  mTerminalPositionLookupTable : TerminalPositionLookupTable
  mProbabilityDictContent : ProbabilityDictContent
  mBigramDictContent : BigramDictContent
  mShortcutDictContent : ShortcutDictContent
  mIsUpdatable : Bool
deriving DecidableEq, Repr

/-- The collaborator environment of the open path.  `openBuffer` stands for
`MmappedBuffer::openBuffer(path, suffix, updatableFlag)`, which is modelled from
the spec: it may fail (return `none`) when the file is missing or the mapping
call fails.  `headerPolicyOfBuffer` stands for constructing a `HeaderPolicy`
from the raw header bytes and the format version. -/
structure OpenEnv where
  openBuffer : FsPath → FsPath → Bool → Option MmappedBuffer
  headerPolicyOfBuffer : List Nat → Nat → HeaderPolicy

/-- Mirrors the private `Ver4DictBuffers` constructor taking an existing path
(source lines 118-135): the trie file is opened from the same `dictPath` with
the `TRIE_FILE_EXTENSION` suffix and the same updatable flag; the expandable
trie buffer wraps the opened mapping or, when the open failed, a null base of
length zero; all four content sections are loaded from `dictPath` with the same
updatable flag. -/
def Ver4DictBuffers.ofExisting (env : OpenEnv) (dictPath : FsPath)
    (headerBuffer : MmappedBuffer) (updatableFlag : Bool) (formatVersion : Nat) :
    Ver4DictBuffers :=
  let mDictBuffer := env.openBuffer dictPath TRIE_FILE_EXTENSION updatableFlag
  let mHeaderPolicy := env.headerPolicyOfBuffer headerBuffer.buffer formatVersion
  { mHeaderBuffer := some headerBuffer
    mDictBuffer := mDictBuffer
    mHeaderPolicy := mHeaderPolicy
    mExpandableHeaderBuffer :=
      ⟨some headerBuffer.buffer, mHeaderPolicy.size, DEFAULT_MAX_ADDITIONAL_BUFFER_SIZE⟩
    mExpandableTrieBuffer :=
      ⟨mDictBuffer.map MmappedBuffer.buffer,
        (match mDictBuffer with
         | some b => b.bufferSize
         | none => 0),
        DEFAULT_MAX_ADDITIONAL_BUFFER_SIZE⟩
    mTerminalPositionLookupTable := .fromDir dictPath updatableFlag
    mProbabilityDictContent :=
      .fromDir dictPath mHeaderPolicy.hasHistoricalInfoOfWords updatableFlag
    mBigramDictContent :=
      .fromDir dictPath mHeaderPolicy.hasHistoricalInfoOfWords updatableFlag
    mShortcutDictContent := .fromDir dictPath updatableFlag
    mIsUpdatable := updatableFlag }

/-- Mirrors `Ver4DictBuffers::openVer4DictBuffers` (source lines 29-41): a null
header buffer aborts with a null pointer; otherwise the updatable flag is read
off the header mapping and the private constructor runs. -/
def openVer4DictBuffers (env : OpenEnv) (dictPath : FsPath)
    (headerBuffer : Option MmappedBuffer) (formatVersion : Nat) :
    Option Ver4DictBuffers :=
  match headerBuffer with
  | none => none
  | some hb => some (Ver4DictBuffers.ofExisting env dictPath hb hb.isUpdatable formatVersion)

/-- Mirrors the fresh `Ver4DictBuffers` constructor (source lines 137-143):
null header and dict mappings, unbound header and trie buffers sized by
`MAX_DICTIONARY_SIZE` and `maxTrieSize`, fresh content sections, updatable. -/
def Ver4DictBuffers.createFresh (headerPolicy : HeaderPolicy) (maxTrieSize : Nat) :
    Ver4DictBuffers :=
  { mHeaderBuffer := none
    mDictBuffer := none
    mHeaderPolicy := headerPolicy
    mExpandableHeaderBuffer := BufferWithExtendableBuffer.unbound MAX_DICTIONARY_SIZE
    mExpandableTrieBuffer := BufferWithExtendableBuffer.unbound maxTrieSize
    mTerminalPositionLookupTable := .fresh
    mProbabilityDictContent := .fresh headerPolicy.hasHistoricalInfoOfWords
    mBigramDictContent := .fresh headerPolicy.hasHistoricalInfoOfWords
    mShortcutDictContent := .fresh
    mIsUpdatable := true }

/-! ## The file-system model used by the flush protocol -/

/-- What a staged or pre-existing file holds: either raw bytes (arbitrary
pre-existing content) or the serialization of one of the in-memory objects the
flush writes out. -/
inductive FileData where
  | raw (bytes : List Nat)
  | bufferData (b : BufferWithExtendableBuffer)
  | terminalData (t : TerminalPositionLookupTable)
  | probabilityData (p : ProbabilityDictContent)
  | bigramData (p : BigramDictContent)
  | shortcutData (p : ShortcutDictContent)
deriving DecidableEq, Repr

/-- A file-system entry: a directory or a file with its data. -/
inductive FsEntry where
  | dir
  | file (data : FileData)
deriving DecidableEq, Repr

/-- The file system, as an association list from paths to entries (first
binding wins). -/
abbrev FS := List (FsPath × FsEntry)

/-- Look up the entry at a path. -/
def fsLookup (fs : FS) (p : FsPath) : Option FsEntry :=
  match fs with
  | [] => none
  | (q, e) :: rest => if q = p then some e else fsLookup rest p

/-- `p` lies in the subtree rooted at `root`: it is `root` itself or has
`root ++ "/"` as a prefix. -/
def isUnder (root p : FsPath) : Bool :=
  decide (p = root) || (root ++ "/".data).isPrefixOf p

/-- Mirrors `FileUtils::existsDir`: a directory entry is present at `p`. -/
def fsExistsDir (fs : FS) (p : FsPath) : Bool :=
  match fsLookup fs p with
  | some FsEntry.dir => true
  | _ => false

/-- Modelled from the spec: `FileUtils::removeDirAndFiles` removes a directory
and its contents entirely; on success nothing under the root survives. -/
def fsRemoveSubtree (fs : FS) (root : FsPath) : FS :=
  fs.filter (fun e => !(isUnder root e.1))

/-- Install (create or overwrite) an entry at a path. -/
def fsSetEntry (fs : FS) (p : FsPath) (e : FsEntry) : FS :=
  (p, e) :: fs.filter (fun q => !(decide (q.1 = p)))

/-- The restriction of the file system to the subtree rooted at `root`; two
file systems agree on a directory exactly when their restrictions to it are
equal. -/
def fsRestrict (fs : FS) (root : FsPath) : FS :=
  fs.filter (fun e => isUnder root e.1)

/-- The new path of `p` after the subtree at `oldRoot` is renamed to
`newRoot`. -/
def renamePath (oldRoot newRoot p : FsPath) : FsPath :=
  if isUnder oldRoot p then newRoot ++ p.drop oldRoot.length else p

/-- Modelled from the spec: `rename(2)` moves the whole subtree at `oldRoot` to
`newRoot` atomically (nothing is present at `newRoot` when the flush calls it,
since the canonical directory was just removed). -/
def fsRenameSubtree (fs : FS) (oldRoot newRoot : FsPath) : FS :=
  (fsRemoveSubtree fs newRoot).map (fun e => (renamePath oldRoot newRoot e.1, e.2))

/-! ## The flush protocol (`Ver4DictBuffers::flushHeaderAndDictBuffers`) -/

/-- The temporary sibling directory used by the flush: the canonical directory
path with the fixed temporary suffix appended (source lines 46-51). -/
def tmpDirOf (dictDirPath : FsPath) : FsPath :=
  getFilePathWithSuffix dictDirPath TEMP_FILE_SUFFIX_FOR_WRITING_DICT_FILE

/-- The file-path prefix the staged files are written under: the canonical
directory's base name inside the temporary directory (source lines 64-70). -/
def dictTargetPath (dictDirPath : FsPath) : FsPath :=
  getFilePath (tmpDirOf dictDirPath) (getBasename dictDirPath)

/-- Success or failure of each fallible OS primitive the flush performs, in
program order; this is the failure-injection environment. -/
structure FlushEnv where
  removeStaleTmpOk : Bool
  mkdirOk : Bool
  writeHeaderOk : Bool
  writeTrieOk : Bool
  writeTerminalOk : Bool
  writeProbabilityOk : Bool
  writeBigramOk : Bool
  writeShortcutOk : Bool
  removeCanonicalOk : Bool
  renameOk : Bool
deriving DecidableEq, Repr

/-- The observable file-system operations a flush performs, in order; failed
primitives perform no operation. -/
inductive FlushEvent where
  | removeDir (p : FsPath)
  | makeDir (p : FsPath)
  | writeFile (p : FsPath)
  | renameDir (src dst : FsPath)
deriving DecidableEq, Repr

/-- The result of a flush: the returned boolean, the receiver (the method is
`const`, so it comes back unchanged), the final file system, and the trace of
performed operations. -/
structure FlushResult where
  ok : Bool
  buffers : Ver4DictBuffers
  fs : FS
  trace : List FlushEvent
deriving DecidableEq, Repr

/-- Write a list of files in order, each write controlled by its success flag;
the first failure aborts immediately, keeping the files already written
(mirrors the early-return chain of source lines 72-102). -/
def stageFiles : List (Bool × FsPath × FileData) → FS → Bool × FS × List FlushEvent
  | [], fs => (true, fs, [])
  | (ok, p, d) :: rest, fs =>
    if ok then
      let r := stageFiles rest (fsSetEntry fs p (FsEntry.file d))
      (r.1, r.2.1, FlushEvent.writeFile p :: r.2.2)
    else (false, fs, [])

/-- The six files the flush stages, in source order (lines 72-102): the
caller-supplied header buffer, the trie buffer, then the terminal-position
lookup table, probability, bigram and shortcut contents, all under the
`dictTargetPath` prefix. -/
def flushWriteList (st : Ver4DictBuffers) (env : FlushEnv) (dictDirPath : FsPath)
    (headerBuffer : BufferWithExtendableBuffer) : List (Bool × FsPath × FileData) :=
  [(env.writeHeaderOk,
    getFilePathWithSuffix (dictTargetPath dictDirPath) HEADER_FILE_EXTENSION,
    FileData.bufferData headerBuffer),
   (env.writeTrieOk,
    getFilePathWithSuffix (dictTargetPath dictDirPath) TRIE_FILE_EXTENSION,
    FileData.bufferData st.mExpandableTrieBuffer),
   (env.writeTerminalOk,
    getFilePathWithSuffix (dictTargetPath dictDirPath) TERMINAL_LOOKUP_TABLE_FILE_EXTENSION,
    FileData.terminalData st.mTerminalPositionLookupTable),
   (env.writeProbabilityOk,
    getFilePathWithSuffix (dictTargetPath dictDirPath) PROBABILITY_FILE_EXTENSION,
    FileData.probabilityData st.mProbabilityDictContent),
   (env.writeBigramOk,
    getFilePathWithSuffix (dictTargetPath dictDirPath) BIGRAM_FILE_EXTENSION,
    FileData.bigramData st.mBigramDictContent),
   (env.writeShortcutOk,
    getFilePathWithSuffix (dictTargetPath dictDirPath) SHORTCUT_FILE_EXTENSION,
    FileData.shortcutData st.mShortcutDictContent)]

/-- The staged file paths, in the order they are written. -/
def stagedFilePaths (dictDirPath : FsPath) : List FsPath :=
  [getFilePathWithSuffix (dictTargetPath dictDirPath) HEADER_FILE_EXTENSION,
   getFilePathWithSuffix (dictTargetPath dictDirPath) TRIE_FILE_EXTENSION,
   getFilePathWithSuffix (dictTargetPath dictDirPath) TERMINAL_LOOKUP_TABLE_FILE_EXTENSION,
   getFilePathWithSuffix (dictTargetPath dictDirPath) PROBABILITY_FILE_EXTENSION,
   getFilePathWithSuffix (dictTargetPath dictDirPath) BIGRAM_FILE_EXTENSION,
   getFilePathWithSuffix (dictTargetPath dictDirPath) SHORTCUT_FILE_EXTENSION]

/-- Steps 5 and 6 of the flush (source lines 103-115): remove the canonical
directory and its contents, then rename the temporary directory onto the
canonical path; either failure returns `false` immediately. -/
def flushCommit (st : Ver4DictBuffers) (env : FlushEnv) (dictDirPath : FsPath)
    (fs : FS) (tr : List FlushEvent) : FlushResult :=
  if !env.removeCanonicalOk then ⟨false, st, fs, tr⟩
  else if !env.renameOk then
    ⟨false, st, fsRemoveSubtree fs dictDirPath, tr ++ [FlushEvent.removeDir dictDirPath]⟩
  else
    ⟨true, st,
      fsRenameSubtree (fsRemoveSubtree fs dictDirPath) (tmpDirOf dictDirPath) dictDirPath,
      tr ++ [FlushEvent.removeDir dictDirPath,
             FlushEvent.renameDir (tmpDirOf dictDirPath) dictDirPath]⟩

/-- Step 4 of the flush (source lines 72-102): write the six files in order
into the temporary directory; the first failure returns `false` immediately,
otherwise commit. -/
def flushStageAndCommit (st : Ver4DictBuffers) (env : FlushEnv) (dictDirPath : FsPath)
    (headerBuffer : BufferWithExtendableBuffer) (fs : FS) (tr : List FlushEvent) :
    FlushResult :=
  let r := stageFiles (flushWriteList st env dictDirPath headerBuffer) fs
  if !r.1 then ⟨false, st, r.2.1, tr ++ r.2.2⟩
  else flushCommit st env dictDirPath r.2.1 (tr ++ r.2.2)

/-- Step 2 of the flush (source lines 59-63): create the temporary directory
(`mkdir` with the restrictive mode; the `umask` call only narrows process-wide
state and touches no file); failure returns `false` with the file system as it
stands, otherwise stage and commit. -/
def flushAfterStaleCheck (st : Ver4DictBuffers) (env : FlushEnv) (dictDirPath : FsPath)
    (headerBuffer : BufferWithExtendableBuffer) (fs : FS) (tr : List FlushEvent) :
    FlushResult :=
  if !env.mkdirOk then ⟨false, st, fs, tr⟩
  else flushStageAndCommit st env dictDirPath headerBuffer
    (fsSetEntry fs (tmpDirOf dictDirPath) FsEntry.dir)
    (tr ++ [FlushEvent.makeDir (tmpDirOf dictDirPath)])

/-- Mirrors `Ver4DictBuffers::flushHeaderAndDictBuffers` (source lines 43-116):
compute the temporary sibling path; if a directory already exists there, remove
it and its contents, aborting the flush if that removal fails; then create the
temporary directory, stage the six files into it, remove the canonical
directory, and rename the temporary directory onto the canonical path. -/
def Ver4DictBuffers.flushHeaderAndDictBuffers (st : Ver4DictBuffers) (env : FlushEnv)
    (dictDirPath : FsPath) (headerBuffer : BufferWithExtendableBuffer) (fs : FS) :
    FlushResult :=
  if fsExistsDir fs (tmpDirOf dictDirPath) && !env.removeStaleTmpOk then
    ⟨false, st, fs, []⟩
  else
    flushAfterStaleCheck st env dictDirPath headerBuffer
      (if fsExistsDir fs (tmpDirOf dictDirPath) then
         fsRemoveSubtree fs (tmpDirOf dictDirPath)
       else fs)
      (if fsExistsDir fs (tmpDirOf dictDirPath) then
         [FlushEvent.removeDir (tmpDirOf dictDirPath)]
       else [])

/-! ## Concrete inputs used by witnesses -/

/-- A concrete canonical dictionary directory path. -/
def dPath0 : FsPath := "/a/dict".data

/-- A concrete dictionary-buffers instance. -/
def st0 : Ver4DictBuffers := Ver4DictBuffers.createFresh ⟨0, false⟩ 0

/-- A concrete header buffer argument for flushes. -/
def hbB0 : BufferWithExtendableBuffer := BufferWithExtendableBuffer.unbound 0

/-- A concrete file system holding only the canonical directory. -/
def fs0 : FS := [(dPath0, FsEntry.dir)]

/-- A concrete file system with a stale temporary directory left over. -/
def fsStale0 : FS :=
  [(dPath0, FsEntry.dir), (tmpDirOf dPath0, FsEntry.dir),
   (tmpDirOf dPath0 ++ "/x".data, FsEntry.file (FileData.raw [7]))]

/-- An environment where every primitive succeeds. -/
def envAllOk : FlushEnv := ⟨true, true, true, true, true, true, true, true, true, true⟩

/-- An environment where only the header serialization fails. -/
def envHeaderFail : FlushEnv := ⟨true, true, false, true, true, true, true, true, true, true⟩

/-- An environment where only the final rename fails. -/
def envRenameFail : FlushEnv := ⟨true, true, true, true, true, true, true, true, true, false⟩

/-- An environment where removing the stale temporary directory fails. -/
def envStaleFail : FlushEnv := ⟨false, true, true, true, true, true, true, true, true, true⟩

/-- An open environment whose trie-file open always fails. -/
def openEnvNoTrie : OpenEnv := ⟨fun _ _ _ => none, fun _ _ => ⟨0, false⟩⟩

/-- A concrete memory-mapped header buffer. -/
def mmb0 : MmappedBuffer := ⟨[3, 1, 4], 3, true⟩

/-! ## Lemmas and claim theorems -/

lemma slash_data : "/".data = ['/'] := rfl
lemma tmp_suffix_data : TEMP_FILE_SUFFIX_FOR_WRITING_DICT_FILE = '.' :: "tmp".data := rfl

lemma not_prefix_slash_dot (rest : FsPath) (t : List Char) : ¬ ('/' :: t <+: '.' :: rest) := by
  intro h
  rcases h with ⟨u, hu⟩
  simp at hu

/-- No path of the form `d ++ '.' :: rest` lies in the subtree of `d`. -/
lemma isUnder_append_dot (d rest : FsPath) : isUnder d (d ++ '.' :: rest) = false := by
  unfold isUnder
  rw [Bool.or_eq_false_iff]
  constructor
  · rw [decide_eq_false_iff_not]
    simp [List.append_right_eq_self]
  · rw [← Bool.not_eq_true, List.isPrefixOf_iff_prefix, slash_data]
    rw [show (d ++ ['/'] : FsPath) = d ++ '/' :: ([] : List Char) from rfl]
    intro h
    rw [List.prefix_append_right_inj] at h
    exact not_prefix_slash_dot rest [] h

lemma tmpDirOf_eq (d : FsPath) : tmpDirOf d = d ++ '.' :: "tmp".data := rfl

/-- The temporary sibling directory is not in the canonical subtree. -/
lemma tmpDir_not_under (d : FsPath) : isUnder d (tmpDirOf d) = false :=
  isUnder_append_dot d "tmp".data

/-- Nothing in the temporary directory's subtree is in the canonical subtree. -/
lemma not_under_canonical_of_under_tmp (d p : FsPath)
    (h : isUnder (tmpDirOf d) p = true) : isUnder d p = false := by
  unfold isUnder at h
  rw [Bool.or_eq_true] at h
  rcases h with h | h
  · rw [decide_eq_true_eq] at h
    subst h
    exact tmpDir_not_under d
  · rw [ List.isPrefixOf_iff_prefix] at h
    rcases h with ⟨t, ht⟩
    subst ht
    rw [tmpDirOf_eq, slash_data]
    rw [show (d ++ '.' :: "tmp".data ++ ['/'] ++ t : FsPath) = d ++ '.' :: ("tmp".data ++ ['/'] ++ t) by simp]
    exact isUnder_append_dot d _

lemma tmpDirOf_ne (d : FsPath) : tmpDirOf d ≠ d := by
  rw [tmpDirOf_eq]
  intro h
  rw [List.append_right_eq_self] at h
  simp at h

/-- A staged file target, written out: the canonical path, the dot of the
temporary suffix, then the rest. -/
lemma dictTarget_ext_eq (d ext : FsPath) :
    getFilePathWithSuffix (dictTargetPath d) ext =
      d ++ '.' :: ("tmp".data ++ '/' :: (getBasename d ++ ext)) := by
  simp [getFilePathWithSuffix, dictTargetPath, getFilePath, tmpDirOf,
    TEMP_FILE_SUFFIX_FOR_WRITING_DICT_FILE]

lemma dictTarget_ext_eq_tmp_append (d ext : FsPath) :
    getFilePathWithSuffix (dictTargetPath d) ext =
      tmpDirOf d ++ '/' :: (getBasename d ++ ext) := by
  simp [getFilePathWithSuffix, dictTargetPath, getFilePath, tmpDirOf]

/-- Every staged file path arises from the common target prefix and one of the
six fixed extensions. -/
lemma stagedFilePaths_mem (d p : FsPath) (hp : p ∈ stagedFilePaths d) :
    ∃ ext, p = getFilePathWithSuffix (dictTargetPath d) ext := by
  simp only [stagedFilePaths, List.mem_cons, List.not_mem_nil, or_false] at hp
  rcases hp with h | h | h | h | h | h <;> exact ⟨_, h⟩

/-- No staged file path is in the canonical subtree. -/
lemma stagedFilePaths_not_under (d p : FsPath) (hp : p ∈ stagedFilePaths d) :
    isUnder d p = false := by
  rcases stagedFilePaths_mem d p hp with ⟨ext, he⟩
  subst he
  rw [dictTarget_ext_eq]
  exact isUnder_append_dot d _

/-- No staged file path equals the canonical directory path. -/
lemma stagedFilePaths_ne_canonical (d p : FsPath) (hp : p ∈ stagedFilePaths d) : p ≠ d := by
  rcases stagedFilePaths_mem d p hp with ⟨ext, he⟩
  subst he
  rw [dictTarget_ext_eq]
  intro h
  rw [List.append_right_eq_self] at h
  simp at h

/-- No staged file path equals the temporary directory path itself. -/
lemma stagedFilePaths_ne_tmpDir (d p : FsPath) (hp : p ∈ stagedFilePaths d) :
    p ≠ tmpDirOf d := by
  rcases stagedFilePaths_mem d p hp with ⟨ext, he⟩
  subst he
  rw [dictTarget_ext_eq_tmp_append]
  intro h
  rw [List.append_right_eq_self] at h
  simp at h

/-- Every staged file path is inside the temporary directory's subtree. -/
lemma stagedFilePaths_under_tmpDir (d p : FsPath) (hp : p ∈ stagedFilePaths d) :
    isUnder (tmpDirOf d) p = true := by
  rcases stagedFilePaths_mem d p hp with ⟨ext, he⟩
  subst he
  rw [dictTarget_ext_eq_tmp_append]
  unfold isUnder
  rw [Bool.or_eq_true, List.isPrefixOf_iff_prefix]
  right
  rw [slash_data, show (tmpDirOf d ++ '/' :: (getBasename d ++ ext) : FsPath) =
      (tmpDirOf d ++ ['/']) ++ (getBasename d ++ ext) by simp]
  exact List.prefix_append _ _

/-! ### File-system lemmas -/

/-- Installing an entry outside the subtree of `root` leaves the restriction to
`root` unchanged. -/
lemma fsRestrict_fsSetEntry (fs : FS) (p : FsPath) (e : FsEntry) (root : FsPath)
    (h : isUnder root p = false) :
    fsRestrict (fsSetEntry fs p e) root = fsRestrict fs root := by
  unfold fsRestrict fsSetEntry
  rw [List.filter_cons]
  simp only [h, Bool.false_eq_true, if_false]
  rw [List.filter_filter]
  apply List.filter_congr
  intro x _
  by_cases hx : x.1 = p
  · simp [hx, h]
  · simp [hx]

/-- Removing a subtree disjoint from the subtree of `root` leaves the
restriction to `root` unchanged. -/
lemma fsRestrict_fsRemoveSubtree (fs : FS) (r root : FsPath)
    (h : ∀ p, isUnder r p = true → isUnder root p = false) :
    fsRestrict (fsRemoveSubtree fs r) root = fsRestrict fs root := by
  unfold fsRestrict fsRemoveSubtree
  rw [List.filter_filter]
  apply List.filter_congr
  intro x _
  by_cases hx : isUnder r x.1 = true
  · simp [hx, h x.1 hx]
  · simp [Bool.eq_false_iff.mpr hx]

/-- After removing the subtree at `root`, the restriction to `root` is empty. -/
lemma fsRestrict_fsRemoveSubtree_self (fs : FS) (root : FsPath) :
    fsRestrict (fsRemoveSubtree fs root) root = [] := by
  unfold fsRestrict fsRemoveSubtree
  rw [List.filter_filter]
  apply List.filter_eq_nil_iff.mpr
  intro x _
  by_cases hx : isUnder root x.1 = true <;> simp [hx]

/-- Looking up a path other than the one just installed sees through the
installation. -/
lemma fsLookup_fsSetEntry_ne (fs : FS) (p : FsPath) (e : FsEntry) (q : FsPath)
    (h : p ≠ q) : fsLookup (fsSetEntry fs p e) q = fsLookup fs q := by
  unfold fsSetEntry
  rw [fsLookup]
  simp only [h, if_false]
  induction fs with
  | nil => rfl
  | cons a rest ih =>
    rw [List.filter_cons]
    by_cases ha : a.1 = p
    · simp only [ha, decide_True, Bool.not_true, Bool.false_eq_true, if_false]
      rw [ih, fsLookup, if_neg (by rw [ha]; exact h)]
    · simp only [ha, decide_False, Bool.not_false, if_true]
      rw [fsLookup, fsLookup]
      by_cases haq : a.1 = q
      · simp [haq]
      · simp [haq, ih]

/-- Looking up the path just installed returns the new entry. -/
lemma fsLookup_fsSetEntry_self (fs : FS) (p : FsPath) (e : FsEntry) :
    fsLookup (fsSetEntry fs p e) p = some e := by
  unfold fsSetEntry
  rw [fsLookup, if_pos rfl]

/-! ### Staging lemmas -/

/-- Staging succeeds exactly when every write succeeds. -/
lemma stageFiles_fst (l : List (Bool × FsPath × FileData)) (fs : FS) :
    (stageFiles l fs).1 = l.all (fun x => x.1) := by
  induction l generalizing fs with
  | nil => rfl
  | cons a rest ih =>
    rcases a with ⟨ok, p, dt⟩
    by_cases h : ok = true <;> simp [stageFiles, h, ih]

/-- Staging writes only at the listed paths: the restriction to any root that
contains none of them is unchanged. -/
lemma stageFiles_restrict (l : List (Bool × FsPath × FileData)) (fs : FS) (root : FsPath)
    (h : ∀ x ∈ l, isUnder root x.2.1 = false) :
    fsRestrict (stageFiles l fs).2.1 root = fsRestrict fs root := by
  induction l generalizing fs with
  | nil => rfl
  | cons a rest ih =>
    rcases a with ⟨ok, p, dt⟩
    by_cases hok : ok = true
    · simp only [stageFiles, hok, if_true]
      rw [ih _ (fun x hx => h x (List.mem_cons_of_mem _ hx))]
      exact fsRestrict_fsSetEntry fs p _ root (h _ (List.mem_cons_self _ _))
    · simp [stageFiles, hok]

/-- Staging does not touch the entry at any path not in the list. -/
lemma stageFiles_lookup (l : List (Bool × FsPath × FileData)) (fs : FS) (q : FsPath)
    (h : ∀ x ∈ l, x.2.1 ≠ q) :
    fsLookup (stageFiles l fs).2.1 q = fsLookup fs q := by
  induction l generalizing fs with
  | nil => rfl
  | cons a rest ih =>
    rcases a with ⟨ok, p, dt⟩
    by_cases hok : ok = true
    · simp only [stageFiles, hok, if_true]
      rw [ih _ (fun x hx => h x (List.mem_cons_of_mem _ hx))]
      exact fsLookup_fsSetEntry_ne fs p _ q (h _ (List.mem_cons_self _ _))
    · simp [stageFiles, hok]

/-- When staging succeeds, its trace is the write of every listed path in
order. -/
lemma stageFiles_trace_of_ok (l : List (Bool × FsPath × FileData)) (fs : FS)
    (h : (stageFiles l fs).1 = true) :
    (stageFiles l fs).2.2 = l.map (fun x => FlushEvent.writeFile x.2.1) := by
  induction l generalizing fs with
  | nil => rfl
  | cons a rest ih =>
    rcases a with ⟨ok, p, dt⟩
    by_cases hok : ok = true
    · simp only [stageFiles, hok, if_true] at h ⊢
      rw [List.map_cons, ih _ h]
    · simp [stageFiles, hok] at h

/-- Every event staging emits is the write of a listed path. -/
lemma stageFiles_trace_mem (l : List (Bool × FsPath × FileData)) (fs : FS) :
    ∀ e ∈ (stageFiles l fs).2.2, ∃ x ∈ l, e = FlushEvent.writeFile x.2.1 := by
  induction l generalizing fs with
  | nil => intro e he; simp [stageFiles] at he
  | cons a rest ih =>
    rcases a with ⟨ok, p, dt⟩
    intro e he
    by_cases hok : ok = true
    · simp only [stageFiles, hok, if_true, List.mem_cons] at he
      rcases he with he | he
      · exact ⟨(ok, p, dt), List.mem_cons_self _ _, he⟩
      · rcases ih _ e he with ⟨x, hx, hex⟩
        exact ⟨x, List.mem_cons_of_mem _ hx, hex⟩
    · simp [stageFiles, hok] at he

/-- The successes in the write list are exactly the six write flags, and its
paths are the staged file paths. -/
lemma flushWriteList_map_fst (st : Ver4DictBuffers) (env : FlushEnv) (d : FsPath)
    (hb : BufferWithExtendableBuffer) :
    (flushWriteList st env d hb).all (fun x => x.1) =
      (env.writeHeaderOk && env.writeTrieOk && env.writeTerminalOk &&
       env.writeProbabilityOk && env.writeBigramOk && env.writeShortcutOk) := by
  simp [flushWriteList, List.all_cons, Bool.and_assoc]

lemma flushWriteList_paths (st : Ver4DictBuffers) (env : FlushEnv) (d : FsPath)
    (hb : BufferWithExtendableBuffer) :
    (flushWriteList st env d hb).map (fun x => x.2.1) = stagedFilePaths d := rfl

lemma flushWriteList_mem_path (st : Ver4DictBuffers) (env : FlushEnv) (d : FsPath)
    (hb : BufferWithExtendableBuffer) (x : Bool × FsPath × FileData)
    (hx : x ∈ flushWriteList st env d hb) : x.2.1 ∈ stagedFilePaths d := by
  rw [← flushWriteList_paths st env d hb]
  exact List.mem_map_of_mem _ hx

/-! ### Flush case analysis -/

/-- Exhaustive description of the flush after the stale-temporary-directory
check, one disjunct per source early-return plus the success path. -/
lemma flushAfterStaleCheck_cases (st : Ver4DictBuffers) (env : FlushEnv) (d : FsPath)
    (hb : BufferWithExtendableBuffer) (fs : FS) (tr : List FlushEvent) :
    (env.mkdirOk = false ∧ flushAfterStaleCheck st env d hb fs tr = ⟨false, st, fs, tr⟩) ∨
    (env.mkdirOk = true ∧
     ∃ S, S = stageFiles (flushWriteList st env d hb)
                (fsSetEntry fs (tmpDirOf d) FsEntry.dir) ∧
       ((S.1 = false ∧
           flushAfterStaleCheck st env d hb fs tr =
             ⟨false, st, S.2.1, tr ++ FlushEvent.makeDir (tmpDirOf d) :: S.2.2⟩) ∨
        (S.1 = true ∧ env.removeCanonicalOk = false ∧
           flushAfterStaleCheck st env d hb fs tr =
             ⟨false, st, S.2.1, tr ++ FlushEvent.makeDir (tmpDirOf d) :: S.2.2⟩) ∨
        (S.1 = true ∧ env.removeCanonicalOk = true ∧ env.renameOk = false ∧
           flushAfterStaleCheck st env d hb fs tr =
             ⟨false, st, fsRemoveSubtree S.2.1 d,
               tr ++ FlushEvent.makeDir (tmpDirOf d) :: S.2.2 ++ [FlushEvent.removeDir d]⟩) ∨
        (S.1 = true ∧ env.removeCanonicalOk = true ∧ env.renameOk = true ∧
           flushAfterStaleCheck st env d hb fs tr =
             ⟨true, st, fsRenameSubtree (fsRemoveSubtree S.2.1 d) (tmpDirOf d) d,
               tr ++ FlushEvent.makeDir (tmpDirOf d) :: S.2.2 ++
                 [FlushEvent.removeDir d, FlushEvent.renameDir (tmpDirOf d) d]⟩))) := by
  by_cases hm : env.mkdirOk = true
  · right
    refine ⟨hm, _, rfl, ?_⟩
    by_cases hs : (stageFiles (flushWriteList st env d hb)
        (fsSetEntry fs (tmpDirOf d) FsEntry.dir)).1 = true
    · by_cases hc : env.removeCanonicalOk = true
      · by_cases hn : env.renameOk = true
        · right; right; right
          refine ⟨hs, hc, hn, ?_⟩
          simp [flushAfterStaleCheck, flushStageAndCommit, flushCommit, hm, hs, hc, hn]
        · right; right; left
          refine ⟨hs, hc, Bool.eq_false_iff.mpr hn, ?_⟩
          simp [flushAfterStaleCheck, flushStageAndCommit, flushCommit, hm, hs, hc,
            Bool.eq_false_iff.mpr hn]
      · right; left
        refine ⟨hs, Bool.eq_false_iff.mpr hc, ?_⟩
        simp [flushAfterStaleCheck, flushStageAndCommit, flushCommit, hm, hs,
          Bool.eq_false_iff.mpr hc]
    · left
      refine ⟨Bool.eq_false_iff.mpr hs, ?_⟩
      simp [flushAfterStaleCheck, flushStageAndCommit, hm, Bool.eq_false_iff.mpr hs]
  · left
    refine ⟨Bool.eq_false_iff.mpr hm, ?_⟩
    simp [flushAfterStaleCheck, Bool.eq_false_iff.mpr hm]

/-- The whole flush reduced to its stale check plus `flushAfterStaleCheck_cases`. -/
lemma flush_stale_cases (st : Ver4DictBuffers) (env : FlushEnv) (d : FsPath)
    (hb : BufferWithExtendableBuffer) (fs : FS) :
    (fsExistsDir fs (tmpDirOf d) = true ∧ env.removeStaleTmpOk = false ∧
       Ver4DictBuffers.flushHeaderAndDictBuffers st env d hb fs = ⟨false, st, fs, []⟩) ∨
    ((fsExistsDir fs (tmpDirOf d) = true → env.removeStaleTmpOk = true) ∧
       Ver4DictBuffers.flushHeaderAndDictBuffers st env d hb fs =
         flushAfterStaleCheck st env d hb
           (if fsExistsDir fs (tmpDirOf d) then fsRemoveSubtree fs (tmpDirOf d) else fs)
           (if fsExistsDir fs (tmpDirOf d) then [FlushEvent.removeDir (tmpDirOf d)]
            else [])) := by
  by_cases he : fsExistsDir fs (tmpDirOf d) = true
  · by_cases hr : env.removeStaleTmpOk = true
    · right
      exact ⟨fun _ => hr, by simp [Ver4DictBuffers.flushHeaderAndDictBuffers, he, hr]⟩
    · left
      exact ⟨he, Bool.eq_false_iff.mpr hr,
        by simp [Ver4DictBuffers.flushHeaderAndDictBuffers, he, Bool.eq_false_iff.mpr hr]⟩
  · right
    have he' : fsExistsDir fs (tmpDirOf d) = false := Bool.eq_false_iff.mpr he
    exact ⟨fun h => absurd h he,
      by simp [Ver4DictBuffers.flushHeaderAndDictBuffers, he']⟩

/-- The whole staging pipeline (create the temporary directory, write the six
files) leaves the canonical subtree untouched. -/
lemma stagePipeline_restrict (st : Ver4DictBuffers) (env : FlushEnv) (d : FsPath)
    (hb : BufferWithExtendableBuffer) (fs1 : FS) :
    fsRestrict (stageFiles (flushWriteList st env d hb)
        (fsSetEntry fs1 (tmpDirOf d) FsEntry.dir)).2.1 d = fsRestrict fs1 d := by
  rw [stageFiles_restrict _ _ _
    (fun x hx => stagedFilePaths_not_under d _ (flushWriteList_mem_path st env d hb x hx))]
  exact fsRestrict_fsSetEntry fs1 _ _ d (tmpDir_not_under d)

/-- Removing a stale temporary directory leaves the canonical subtree
untouched. -/
lemma staleRemoval_restrict (d : FsPath) (fs : FS) (e : Bool) :
    fsRestrict (if e then fsRemoveSubtree fs (tmpDirOf d) else fs) d = fsRestrict fs d := by
  cases e with
  | false => rfl
  | true =>
    exact fsRestrict_fsRemoveSubtree fs _ d (fun p hp => not_under_canonical_of_under_tmp d p hp)

/-- After the staging pipeline the temporary directory entry is present. -/
lemma stagePipeline_lookup_tmp (st : Ver4DictBuffers) (env : FlushEnv) (d : FsPath)
    (hb : BufferWithExtendableBuffer) (fs1 : FS) :
    fsLookup (stageFiles (flushWriteList st env d hb)
        (fsSetEntry fs1 (tmpDirOf d) FsEntry.dir)).2.1 (tmpDirOf d) = some FsEntry.dir := by
  rw [stageFiles_lookup _ _ _
    (fun x hx => stagedFilePaths_ne_tmpDir d _ (flushWriteList_mem_path st env d hb x hx))]
  exact fsLookup_fsSetEntry_self fs1 _ _

/-- The canonical directory's removal event never comes from the staging
trace. -/
lemma removeDir_canonical_not_mem_stage (st : Ver4DictBuffers) (env : FlushEnv) (d : FsPath)
    (hb : BufferWithExtendableBuffer) (fs : FS) :
    FlushEvent.removeDir d ∉ (stageFiles (flushWriteList st env d hb) fs).2.2 := by
  intro h
  rcases stageFiles_trace_mem _ _ _ h with ⟨x, _, hx⟩
  simp at hx

/-- The rename event never comes from the staging trace. -/
lemma renameDir_not_mem_stage (st : Ver4DictBuffers) (env : FlushEnv) (d : FsPath)
    (hb : BufferWithExtendableBuffer) (fs : FS) :
    FlushEvent.renameDir (tmpDirOf d) d ∉ (stageFiles (flushWriteList st env d hb) fs).2.2 := by
  intro h
  rcases stageFiles_trace_mem _ _ _ h with ⟨x, _, hx⟩
  simp at hx

/-- The canonical directory's removal event never comes from the stale
temporary directory removal. -/
lemma removeDir_canonical_not_mem_tr1 (d : FsPath) (e : Bool) :
    FlushEvent.removeDir d ∉
      (if e then [FlushEvent.removeDir (tmpDirOf d)] else ([] : List FlushEvent)) := by
  cases e with
  | false => simp
  | true =>
    simp
    exact fun h => tmpDirOf_ne d h.symm

/-- The rename event never comes from the stale temporary directory removal. -/
lemma renameDir_not_mem_tr1 (d : FsPath) (e : Bool) :
    FlushEvent.renameDir (tmpDirOf d) d ∉
      (if e then [FlushEvent.removeDir (tmpDirOf d)] else ([] : List FlushEvent)) := by
  cases e with
  | false => simp
  | true => simp

/-- The trace of the post-stale-check flush extends whatever trace it starts
from. -/
lemma flushAfterStaleCheck_trace_extends (st : Ver4DictBuffers) (env : FlushEnv)
    (d : FsPath) (hb : BufferWithExtendableBuffer) (fs : FS) (tr : List FlushEvent) :
    ∃ rest, (flushAfterStaleCheck st env d hb fs tr).trace = tr ++ rest := by
  rcases flushAfterStaleCheck_cases st env d hb fs tr with ⟨_, h⟩ | ⟨_, S, _, h⟩
  · exact ⟨[], by rw [h]; simp⟩
  · rcases h with ⟨_, h⟩ | ⟨_, _, h⟩ | ⟨_, _, _, h⟩ | ⟨_, _, _, h⟩
    · exact ⟨_, by rw [h]⟩
    · exact ⟨_, by rw [h]⟩
    · exact ⟨FlushEvent.makeDir (tmpDirOf d) :: S.2.2 ++ [FlushEvent.removeDir d],
        by rw [h]; simp [List.append_assoc]⟩
    · exact ⟨FlushEvent.makeDir (tmpDirOf d) :: S.2.2 ++
          [FlushEvent.removeDir d, FlushEvent.renameDir (tmpDirOf d) d],
        by rw [h]; simp [List.append_assoc]⟩

/-- The staging step of the flush succeeds exactly when all six write flags
are set. -/
lemma stage_fst_eq_allWrites (st : Ver4DictBuffers) (env : FlushEnv) (d : FsPath)
    (hb : BufferWithExtendableBuffer) (fs : FS) :
    (stageFiles (flushWriteList st env d hb) fs).1 =
      (env.writeHeaderOk && env.writeTrieOk && env.writeTerminalOk &&
       env.writeProbabilityOk && env.writeBigramOk && env.writeShortcutOk) := by
  rw [stageFiles_fst, flushWriteList_map_fst]

/-- On success the staging trace is the write of every staged path in order. -/
lemma stage_trace_eq_staged_map (st : Ver4DictBuffers) (env : FlushEnv) (d : FsPath)
    (hb : BufferWithExtendableBuffer) (fs : FS)
    (h : (stageFiles (flushWriteList st env d hb) fs).1 = true) :
    (stageFiles (flushWriteList st env d hb) fs).2.2 =
      (stagedFilePaths d).map FlushEvent.writeFile := by
  rw [stageFiles_trace_of_ok _ _ h]
  rfl

/-- On success every staged path's write event is in the staging trace. -/
lemma writes_mem_stage_trace (st : Ver4DictBuffers) (env : FlushEnv) (d : FsPath)
    (hb : BufferWithExtendableBuffer) (fs : FS)
    (h : (stageFiles (flushWriteList st env d hb) fs).1 = true) :
    ∀ p ∈ stagedFilePaths d,
      FlushEvent.writeFile p ∈ (stageFiles (flushWriteList st env d hb) fs).2.2 := by
  intro p hp
  rw [stage_trace_eq_staged_map st env d hb fs h]
  exact List.mem_map_of_mem _ hp

/-! ## The claims -/

/-- C3: `openVer4DictBuffers` with an absent (null) header buffer performs no
construction and returns the null handle; with a present header buffer it
returns a valid (non-null) handle. -/
theorem openVer4DictBuffers_null_header_rejected (env : OpenEnv) (dictPath : FsPath)
    (formatVersion : Nat) :
    openVer4DictBuffers env dictPath none formatVersion = none ∧
    ∀ hb : MmappedBuffer,
      (openVer4DictBuffers env dictPath (some hb) formatVersion).isSome = true :=
  ⟨rfl, fun _ => rfl⟩

/-- C4: opening from an existing path with a present header buffer sets
`mIsUpdatable` to the header mapping's writability, opens the trie file from
the same directory with exactly that writability, and passes the same flag to
all four content-section load constructors. -/
theorem openVer4DictBuffers_propagates_writability (env : OpenEnv) (dictPath : FsPath)
    (hb : MmappedBuffer) (formatVersion : Nat) :
    openVer4DictBuffers env dictPath (some hb) formatVersion =
      some (Ver4DictBuffers.ofExisting env dictPath hb hb.isUpdatable formatVersion) ∧
    (Ver4DictBuffers.ofExisting env dictPath hb hb.isUpdatable formatVersion).mIsUpdatable =
      hb.isUpdatable ∧
    (Ver4DictBuffers.ofExisting env dictPath hb hb.isUpdatable formatVersion).mDictBuffer =
      env.openBuffer dictPath TRIE_FILE_EXTENSION hb.isUpdatable ∧
    (Ver4DictBuffers.ofExisting env dictPath hb hb.isUpdatable
        formatVersion).mTerminalPositionLookupTable =
      TerminalPositionLookupTable.fromDir dictPath hb.isUpdatable ∧
    (Ver4DictBuffers.ofExisting env dictPath hb hb.isUpdatable
        formatVersion).mProbabilityDictContent =
      ProbabilityDictContent.fromDir dictPath
        (env.headerPolicyOfBuffer hb.buffer formatVersion).hasHistoricalInfoOfWords
        hb.isUpdatable ∧
    (Ver4DictBuffers.ofExisting env dictPath hb hb.isUpdatable
        formatVersion).mBigramDictContent =
      BigramDictContent.fromDir dictPath
        (env.headerPolicyOfBuffer hb.buffer formatVersion).hasHistoricalInfoOfWords
        hb.isUpdatable ∧
    (Ver4DictBuffers.ofExisting env dictPath hb hb.isUpdatable
        formatVersion).mShortcutDictContent =
      ShortcutDictContent.fromDir dictPath hb.isUpdatable :=
  ⟨rfl, rfl, rfl, rfl, rfl, rfl, rfl⟩

/-- C5: fresh construction has null header and trie mappings, header and trie
buffers in unbound capacity-only mode, all four content sections fresh, and
`mIsUpdatable` true. -/
theorem createFresh_state (headerPolicy : HeaderPolicy) (maxTrieSize : Nat) :
    (Ver4DictBuffers.createFresh headerPolicy maxTrieSize).mHeaderBuffer = none ∧
    (Ver4DictBuffers.createFresh headerPolicy maxTrieSize).mDictBuffer = none ∧
    (Ver4DictBuffers.createFresh headerPolicy maxTrieSize).mExpandableHeaderBuffer =
      ⟨none, 0, MAX_DICTIONARY_SIZE⟩ ∧
    (Ver4DictBuffers.createFresh headerPolicy maxTrieSize).mExpandableTrieBuffer =
      ⟨none, 0, maxTrieSize⟩ ∧
    (Ver4DictBuffers.createFresh headerPolicy maxTrieSize).mTerminalPositionLookupTable =
      TerminalPositionLookupTable.fresh ∧
    (Ver4DictBuffers.createFresh headerPolicy maxTrieSize).mProbabilityDictContent =
      ProbabilityDictContent.fresh headerPolicy.hasHistoricalInfoOfWords ∧
    (Ver4DictBuffers.createFresh headerPolicy maxTrieSize).mBigramDictContent =
      BigramDictContent.fresh headerPolicy.hasHistoricalInfoOfWords ∧
    (Ver4DictBuffers.createFresh headerPolicy maxTrieSize).mShortcutDictContent =
      ShortcutDictContent.fresh ∧
    (Ver4DictBuffers.createFresh headerPolicy maxTrieSize).mIsUpdatable = true :=
  ⟨rfl, rfl, rfl, rfl, rfl, rfl, rfl, rfl, rfl⟩

/-- C9: the flush is `const`: the receiver comes back untouched whatever the
environment, paths, header buffer and file system are. -/
theorem flush_receiver_unchanged (st : Ver4DictBuffers) (env : FlushEnv) (d : FsPath)
    (hb : BufferWithExtendableBuffer) (fs : FS) :
    (Ver4DictBuffers.flushHeaderAndDictBuffers st env d hb fs).buffers = st := by
  rcases flush_stale_cases st env d hb fs with ⟨_, _, hEq⟩ | ⟨_, hEq⟩
  · rw [hEq]
  · rw [hEq]
    rcases flushAfterStaleCheck_cases st env d hb
        (if fsExistsDir fs (tmpDirOf d) then fsRemoveSubtree fs (tmpDirOf d) else fs)
        (if fsExistsDir fs (tmpDirOf d) then [FlushEvent.removeDir (tmpDirOf d)] else [])
      with ⟨_, h2⟩ | ⟨_, S, _, h2⟩
    · rw [h2]
    · rcases h2 with ⟨_, h3⟩ | ⟨_, _, h3⟩ | ⟨_, _, _, h3⟩ | ⟨_, _, _, h3⟩ <;> rw [h3]

/-- C10: with a present header buffer, a failed trie-file open still yields a
valid handle whose trie buffer has no base region and base length zero. -/
theorem openVer4DictBuffers_tolerates_missing_trie (env : OpenEnv) (dictPath : FsPath)
    (hb : MmappedBuffer) (formatVersion : Nat)
    (h : env.openBuffer dictPath TRIE_FILE_EXTENSION hb.isUpdatable = none) :
    openVer4DictBuffers env dictPath (some hb) formatVersion =
      some (Ver4DictBuffers.ofExisting env dictPath hb hb.isUpdatable formatVersion) ∧
    (Ver4DictBuffers.ofExisting env dictPath hb hb.isUpdatable
        formatVersion).mExpandableTrieBuffer.originalBuffer = none ∧
    (Ver4DictBuffers.ofExisting env dictPath hb hb.isUpdatable
        formatVersion).mExpandableTrieBuffer.originalBufferSize = 0 := by
  refine ⟨rfl, ?_, ?_⟩ <;> simp [Ver4DictBuffers.ofExisting, h]

/-- Witness for C10 at a concrete environment whose trie open fails. -/
theorem openVer4DictBuffers_tolerates_missing_trie_witness :
    openVer4DictBuffers openEnvNoTrie dPath0 (some mmb0) 402 =
      some (Ver4DictBuffers.ofExisting openEnvNoTrie dPath0 mmb0 mmb0.isUpdatable 402) ∧
    (Ver4DictBuffers.ofExisting openEnvNoTrie dPath0 mmb0 mmb0.isUpdatable
        402).mExpandableTrieBuffer.originalBuffer = none ∧
    (Ver4DictBuffers.ofExisting openEnvNoTrie dPath0 mmb0 mmb0.isUpdatable
        402).mExpandableTrieBuffer.originalBufferSize = 0 :=
  openVer4DictBuffers_tolerates_missing_trie openEnvNoTrie dPath0 mmb0 402 rfl

/-- The canonical directory's removal event is not in the pre-commit trace. -/
lemma removeDir_canonical_not_mem_pretrace (st : Ver4DictBuffers) (env : FlushEnv)
    (d : FsPath) (hb : BufferWithExtendableBuffer) (fs1 : FS) (e : Bool) :
    FlushEvent.removeDir d ∉
      ((if e then [FlushEvent.removeDir (tmpDirOf d)] else []) ++
        FlushEvent.makeDir (tmpDirOf d) ::
          (stageFiles (flushWriteList st env d hb)
            (fsSetEntry fs1 (tmpDirOf d) FsEntry.dir)).2.2) := by
  intro h
  rw [List.mem_append, List.mem_cons] at h
  rcases h with h | h | h
  · exact removeDir_canonical_not_mem_tr1 d e h
  · simp at h
  · exact removeDir_canonical_not_mem_stage st env d hb _ h

/-- The rename event is not in the pre-commit trace. -/
lemma renameDir_not_mem_pretrace (st : Ver4DictBuffers) (env : FlushEnv)
    (d : FsPath) (hb : BufferWithExtendableBuffer) (fs1 : FS) (e : Bool) :
    FlushEvent.renameDir (tmpDirOf d) d ∉
      ((if e then [FlushEvent.removeDir (tmpDirOf d)] else []) ++
        FlushEvent.makeDir (tmpDirOf d) ::
          (stageFiles (flushWriteList st env d hb)
            (fsSetEntry fs1 (tmpDirOf d) FsEntry.dir)).2.2) := by
  intro h
  rw [List.mem_append, List.mem_cons] at h
  rcases h with h | h | h
  · exact renameDir_not_mem_tr1 d e h
  · simp at h
  · exact renameDir_not_mem_stage st env d hb _ h

/-- Any flush run whose trace lacks the canonical directory's removal has
failed and has left the canonical subtree untouched. -/
lemma flush_frame_of_no_canonical_removal (st : Ver4DictBuffers) (env : FlushEnv)
    (d : FsPath) (hb : BufferWithExtendableBuffer) (fs : FS)
    (hnot : FlushEvent.removeDir d ∉
      (Ver4DictBuffers.flushHeaderAndDictBuffers st env d hb fs).trace) :
    (Ver4DictBuffers.flushHeaderAndDictBuffers st env d hb fs).ok = false ∧
    fsRestrict (Ver4DictBuffers.flushHeaderAndDictBuffers st env d hb fs).fs d =
      fsRestrict fs d := by
  rcases flush_stale_cases st env d hb fs with ⟨_, _, hEq⟩ | ⟨_, hEq⟩
  · rw [hEq]
    exact ⟨rfl, rfl⟩
  · rw [hEq] at hnot ⊢
    rcases flushAfterStaleCheck_cases st env d hb
        (if fsExistsDir fs (tmpDirOf d) then fsRemoveSubtree fs (tmpDirOf d) else fs)
        (if fsExistsDir fs (tmpDirOf d) then [FlushEvent.removeDir (tmpDirOf d)] else [])
      with ⟨_, h2⟩ | ⟨_, S, hS, h2⟩
    · rw [h2]
      exact ⟨rfl, staleRemoval_restrict d fs _⟩
    · subst hS
      rcases h2 with ⟨_, h3⟩ | ⟨_, _, h3⟩ | ⟨_, _, _, h3⟩ | ⟨_, _, _, h3⟩
      · rw [h3]
        refine ⟨rfl, ?_⟩
        rw [stagePipeline_restrict]
        exact staleRemoval_restrict d fs _
      · rw [h3]
        refine ⟨rfl, ?_⟩
        rw [stagePipeline_restrict]
        exact staleRemoval_restrict d fs _
      · rw [h3] at hnot
        exact absurd (by simp : FlushEvent.removeDir d ∈ _ ) hnot
      · rw [h3] at hnot
        exact absurd (by simp : FlushEvent.removeDir d ∈ _ ) hnot

/-- C1: the canonical directory is removed only after the header, trie and all
four content-section files have been staged into the temporary directory (all
six write events precede the removal event, and every staged path lies inside
the temporary directory), and any failure before that removal returns failure
with the canonical subtree untouched. -/
theorem flush_destroys_canonical_only_after_staging (st : Ver4DictBuffers)
    (env : FlushEnv) (d : FsPath) (hb : BufferWithExtendableBuffer) (fs : FS) :
    (FlushEvent.removeDir d ∈
        (Ver4DictBuffers.flushHeaderAndDictBuffers st env d hb fs).trace →
       ∃ pre suf,
         (Ver4DictBuffers.flushHeaderAndDictBuffers st env d hb fs).trace =
           pre ++ FlushEvent.removeDir d :: suf ∧
         ∀ p ∈ stagedFilePaths d,
           FlushEvent.writeFile p ∈ pre ∧ isUnder (tmpDirOf d) p = true) ∧
    (FlushEvent.removeDir d ∉
        (Ver4DictBuffers.flushHeaderAndDictBuffers st env d hb fs).trace →
       (Ver4DictBuffers.flushHeaderAndDictBuffers st env d hb fs).ok = false ∧
       fsRestrict (Ver4DictBuffers.flushHeaderAndDictBuffers st env d hb fs).fs d =
         fsRestrict fs d) := by
  constructor
  · intro hmem
    rcases flush_stale_cases st env d hb fs with ⟨_, _, hEq⟩ | ⟨_, hEq⟩
    · rw [hEq] at hmem
      simp at hmem
    · rw [hEq] at hmem ⊢
      rcases flushAfterStaleCheck_cases st env d hb
          (if fsExistsDir fs (tmpDirOf d) then fsRemoveSubtree fs (tmpDirOf d) else fs)
          (if fsExistsDir fs (tmpDirOf d) then [FlushEvent.removeDir (tmpDirOf d)] else [])
        with ⟨_, h2⟩ | ⟨_, S, hS, h2⟩
      · rw [h2] at hmem
        exact absurd hmem (removeDir_canonical_not_mem_tr1 d _)
      · subst hS
        rcases h2 with ⟨_, h3⟩ | ⟨_, _, h3⟩ | ⟨hs1, _, _, h3⟩ | ⟨hs1, _, _, h3⟩
        · rw [h3] at hmem
          exact absurd hmem (removeDir_canonical_not_mem_pretrace st env d hb _ _)
        · rw [h3] at hmem
          exact absurd hmem (removeDir_canonical_not_mem_pretrace st env d hb _ _)
        · rw [h3]
          refine ⟨_, [], rfl, fun p hp => ⟨?_, stagedFilePaths_under_tmpDir d p hp⟩⟩
          exact List.mem_append_right _
            (List.mem_cons_of_mem _ (writes_mem_stage_trace st env d hb _ hs1 p hp))
        · rw [h3]
          refine ⟨_, [FlushEvent.renameDir (tmpDirOf d) d], rfl,
            fun p hp => ⟨?_, stagedFilePaths_under_tmpDir d p hp⟩⟩
          exact List.mem_append_right _
            (List.mem_cons_of_mem _ (writes_mem_stage_trace st env d hb _ hs1 p hp))
  · exact flush_frame_of_no_canonical_removal st env d hb fs

/-- Witness for C1: with a failing header write the flush fails and the
canonical subtree is untouched. -/
theorem flush_destroys_canonical_only_after_staging_witness :
    (Ver4DictBuffers.flushHeaderAndDictBuffers st0 envHeaderFail dPath0 hbB0 fs0).ok =
      false ∧
    fsRestrict (Ver4DictBuffers.flushHeaderAndDictBuffers st0 envHeaderFail dPath0 hbB0
        fs0).fs dPath0 = fsRestrict fs0 dPath0 :=
  (flush_destroys_canonical_only_after_staging st0 envHeaderFail dPath0 hbB0 fs0).2
    (by decide)

/-- C2: the rename is attempted only after the canonical directory was
successfully removed (the rename event, when present, directly follows the
removal event at the end of the trace, and the run succeeded); a rename
failure returns failure with the canonical directory already removed and no
rollback attempted, while every earlier failure leaves the canonical subtree
exactly as it was. -/
theorem flush_rename_sole_commit_point (st : Ver4DictBuffers) (env : FlushEnv)
    (d : FsPath) (hb : BufferWithExtendableBuffer) (fs : FS) :
    (FlushEvent.renameDir (tmpDirOf d) d ∈
        (Ver4DictBuffers.flushHeaderAndDictBuffers st env d hb fs).trace →
       (Ver4DictBuffers.flushHeaderAndDictBuffers st env d hb fs).ok = true ∧
       ∃ pre, (Ver4DictBuffers.flushHeaderAndDictBuffers st env d hb fs).trace =
         pre ++ [FlushEvent.removeDir d, FlushEvent.renameDir (tmpDirOf d) d]) ∧
    (FlushEvent.removeDir d ∈
        (Ver4DictBuffers.flushHeaderAndDictBuffers st env d hb fs).trace →
     (Ver4DictBuffers.flushHeaderAndDictBuffers st env d hb fs).ok = false →
       env.renameOk = false ∧
       fsRestrict (Ver4DictBuffers.flushHeaderAndDictBuffers st env d hb fs).fs d = [] ∧
       FlushEvent.renameDir (tmpDirOf d) d ∉
         (Ver4DictBuffers.flushHeaderAndDictBuffers st env d hb fs).trace) ∧
    (FlushEvent.removeDir d ∉
        (Ver4DictBuffers.flushHeaderAndDictBuffers st env d hb fs).trace →
       (Ver4DictBuffers.flushHeaderAndDictBuffers st env d hb fs).ok = false ∧
       fsRestrict (Ver4DictBuffers.flushHeaderAndDictBuffers st env d hb fs).fs d =
         fsRestrict fs d) := by
  refine ⟨?_, ?_, flush_frame_of_no_canonical_removal st env d hb fs⟩
  · intro hmem
    rcases flush_stale_cases st env d hb fs with ⟨_, _, hEq⟩ | ⟨_, hEq⟩
    · rw [hEq] at hmem
      simp at hmem
    · rw [hEq] at hmem ⊢
      rcases flushAfterStaleCheck_cases st env d hb
          (if fsExistsDir fs (tmpDirOf d) then fsRemoveSubtree fs (tmpDirOf d) else fs)
          (if fsExistsDir fs (tmpDirOf d) then [FlushEvent.removeDir (tmpDirOf d)] else [])
        with ⟨_, h2⟩ | ⟨_, S, hS, h2⟩
      · rw [h2] at hmem
        exact absurd hmem (renameDir_not_mem_tr1 d _)
      · subst hS
        rcases h2 with ⟨_, h3⟩ | ⟨_, _, h3⟩ | ⟨_, _, _, h3⟩ | ⟨_, _, _, h3⟩
        · rw [h3] at hmem
          exact absurd hmem (renameDir_not_mem_pretrace st env d hb _ _)
        · rw [h3] at hmem
          exact absurd hmem (renameDir_not_mem_pretrace st env d hb _ _)
        · rw [h3] at hmem
          rw [List.mem_append] at hmem
          rcases hmem with hmem | hmem
          · exact absurd hmem (renameDir_not_mem_pretrace st env d hb _ _)
          · simp at hmem
        · rw [h3]
          refine ⟨rfl,
            (if fsExistsDir fs (tmpDirOf d) then [FlushEvent.removeDir (tmpDirOf d)]
             else []) ++
              FlushEvent.makeDir (tmpDirOf d) ::
                (stageFiles (flushWriteList st env d hb)
                  (fsSetEntry
                    (if fsExistsDir fs (tmpDirOf d) then fsRemoveSubtree fs (tmpDirOf d)
                     else fs)
                    (tmpDirOf d) FsEntry.dir)).2.2, ?_⟩
          simp [List.append_assoc]
  · intro hrd hok
    rcases flush_stale_cases st env d hb fs with ⟨_, _, hEq⟩ | ⟨_, hEq⟩
    · rw [hEq] at hrd
      simp at hrd
    · rw [hEq] at hrd hok ⊢
      rcases flushAfterStaleCheck_cases st env d hb
          (if fsExistsDir fs (tmpDirOf d) then fsRemoveSubtree fs (tmpDirOf d) else fs)
          (if fsExistsDir fs (tmpDirOf d) then [FlushEvent.removeDir (tmpDirOf d)] else [])
        with ⟨_, h2⟩ | ⟨_, S, hS, h2⟩
      · rw [h2] at hrd
        exact absurd hrd (removeDir_canonical_not_mem_tr1 d _)
      · subst hS
        rcases h2 with ⟨_, h3⟩ | ⟨_, _, h3⟩ | ⟨_, _, hn, h3⟩ | ⟨_, _, _, h3⟩
        · rw [h3] at hrd
          exact absurd hrd (removeDir_canonical_not_mem_pretrace st env d hb _ _)
        · rw [h3] at hrd
          exact absurd hrd (removeDir_canonical_not_mem_pretrace st env d hb _ _)
        · rw [h3]
          refine ⟨hn, fsRestrict_fsRemoveSubtree_self _ d, ?_⟩
          intro hc
          rw [List.mem_append] at hc
          rcases hc with hc | hc
          · exact absurd hc (renameDir_not_mem_pretrace st env d hb _ _)
          · simp at hc
        · rw [h3] at hok
          simp at hok

/-- Witness for C2: when only the rename fails, the flush fails with the
canonical subtree already removed and no rename event in the trace. -/
theorem flush_rename_sole_commit_point_witness :
    envRenameFail.renameOk = false ∧
    fsRestrict (Ver4DictBuffers.flushHeaderAndDictBuffers st0 envRenameFail dPath0 hbB0
        fs0).fs dPath0 = [] ∧
    FlushEvent.renameDir (tmpDirOf dPath0) dPath0 ∉
      (Ver4DictBuffers.flushHeaderAndDictBuffers st0 envRenameFail dPath0 hbB0
        fs0).trace :=
  (flush_rename_sole_commit_point st0 envRenameFail dPath0 hbB0 fs0).2.1
    (by decide) (by decide)

/-- C6: the temporary sibling path is the canonical path with the fixed suffix
appended; a stale directory there is removed (first event) before staging
proceeds, and if that removal fails the flush returns failure with the whole
file system untouched. -/
theorem flush_stale_tmp_handling (st : Ver4DictBuffers) (env : FlushEnv) (d : FsPath)
    (hb : BufferWithExtendableBuffer) (fs : FS) :
    tmpDirOf d = getFilePathWithSuffix d TEMP_FILE_SUFFIX_FOR_WRITING_DICT_FILE ∧
    (fsExistsDir fs (tmpDirOf d) = true → env.removeStaleTmpOk = false →
       Ver4DictBuffers.flushHeaderAndDictBuffers st env d hb fs = ⟨false, st, fs, []⟩) ∧
    (fsExistsDir fs (tmpDirOf d) = true → env.removeStaleTmpOk = true →
       ∃ rest, (Ver4DictBuffers.flushHeaderAndDictBuffers st env d hb fs).trace =
         FlushEvent.removeDir (tmpDirOf d) :: rest) := by
  refine ⟨rfl, ?_, ?_⟩
  · intro he hr
    rcases flush_stale_cases st env d hb fs with ⟨_, _, hEq⟩ | ⟨hp, _⟩
    · exact hEq
    · rw [hp he] at hr
      cases hr
  · intro he hr
    rcases flush_stale_cases st env d hb fs with ⟨_, hrf, _⟩ | ⟨_, hEq⟩
    · rw [hr] at hrf
      cases hrf
    · rw [hEq]
      rcases flushAfterStaleCheck_trace_extends st env d hb
          (if fsExistsDir fs (tmpDirOf d) then fsRemoveSubtree fs (tmpDirOf d) else fs)
          (if fsExistsDir fs (tmpDirOf d) then [FlushEvent.removeDir (tmpDirOf d)] else [])
        with ⟨rest, hrest⟩
      refine ⟨rest, ?_⟩
      rw [hrest, he]
      simp

/-- Witness for C6: with a stale temporary directory present and its removal
failing, the flush is a no-op failure. -/
theorem flush_stale_tmp_handling_witness :
    Ver4DictBuffers.flushHeaderAndDictBuffers st0 envStaleFail dPath0 hbB0 fsStale0 =
      ⟨false, st0, fsStale0, []⟩ :=
  (flush_stale_tmp_handling st0 envStaleFail dPath0 hbB0 fsStale0).2.1
    (by decide) (by decide)

/-- C7 counterexample: with only the header serialization failing, the flush
fails but the temporary directory is NOT discarded: its directory entry is
still present in the resulting file system, refuting the claim that the
temporary directory is discarded on a serialization failure. -/
theorem flush_write_failure_keeps_tmp_dir :
    (Ver4DictBuffers.flushHeaderAndDictBuffers st0 envHeaderFail dPath0 hbB0 fs0).ok =
      false ∧
    fsLookup (Ver4DictBuffers.flushHeaderAndDictBuffers st0 envHeaderFail dPath0 hbB0
        fs0).fs (tmpDirOf dPath0) = some FsEntry.dir := by
  constructor
  · rfl
  · rfl

/-- C7 as amended: a serialization failure aborts the flush immediately with
failure and the canonical subtree untouched, but the temporary directory is
left in place (still present as a directory entry), not discarded. -/
theorem flush_write_failure_aborts_leaving_tmp (st : Ver4DictBuffers) (env : FlushEnv)
    (d : FsPath) (hb : BufferWithExtendableBuffer) (fs : FS)
    (hstale : fsExistsDir fs (tmpDirOf d) = true → env.removeStaleTmpOk = true)
    (hmk : env.mkdirOk = true)
    (hfail : (env.writeHeaderOk && env.writeTrieOk && env.writeTerminalOk &&
              env.writeProbabilityOk && env.writeBigramOk &&
              env.writeShortcutOk) = false) :
    (Ver4DictBuffers.flushHeaderAndDictBuffers st env d hb fs).ok = false ∧
    fsRestrict (Ver4DictBuffers.flushHeaderAndDictBuffers st env d hb fs).fs d =
      fsRestrict fs d ∧
    fsLookup (Ver4DictBuffers.flushHeaderAndDictBuffers st env d hb fs).fs
      (tmpDirOf d) = some FsEntry.dir := by
  rcases flush_stale_cases st env d hb fs with ⟨he, hrf, _⟩ | ⟨_, hEq⟩
  · rw [hstale he] at hrf
    cases hrf
  · rw [hEq]
    rcases flushAfterStaleCheck_cases st env d hb
        (if fsExistsDir fs (tmpDirOf d) then fsRemoveSubtree fs (tmpDirOf d) else fs)
        (if fsExistsDir fs (tmpDirOf d) then [FlushEvent.removeDir (tmpDirOf d)] else [])
      with ⟨hmf, _⟩ | ⟨_, S, hS, h2⟩
    · rw [hmf] at hmk
      cases hmk
    · subst hS
      rcases h2 with ⟨_, h3⟩ | ⟨hs1, _, _⟩ | ⟨hs1, _, _, _⟩ | ⟨hs1, _, _, _⟩
      · rw [h3]
        refine ⟨rfl, ?_, stagePipeline_lookup_tmp st env d hb _⟩
        rw [stagePipeline_restrict]
        exact staleRemoval_restrict d fs _
      all_goals
        rw [stage_fst_eq_allWrites] at hs1
        rw [hs1] at hfail
        cases hfail

/-- Witness for the amended C7: a failing header write leaves the canonical
subtree alone and the temporary directory in place. -/
theorem flush_write_failure_aborts_leaving_tmp_witness :
    (Ver4DictBuffers.flushHeaderAndDictBuffers st0 envHeaderFail dPath0 hbB0 fs0).ok =
      false ∧
    fsRestrict (Ver4DictBuffers.flushHeaderAndDictBuffers st0 envHeaderFail dPath0 hbB0
        fs0).fs dPath0 = fsRestrict fs0 dPath0 ∧
    fsLookup (Ver4DictBuffers.flushHeaderAndDictBuffers st0 envHeaderFail dPath0 hbB0
        fs0).fs (tmpDirOf dPath0) = some FsEntry.dir :=
  flush_write_failure_aborts_leaving_tmp st0 envHeaderFail dPath0 hbB0 fs0
    (by decide) (by decide) (by decide)

/-- C8: a successful flush performs, in order: the optional stale-directory
removal, the creation of the temporary directory, the writes of the header
file, the trie file, the terminal-position lookup table, the probability,
bigram and shortcut contents - all six under the prefix obtained by joining
the temporary directory with the canonical directory's base name - then the
canonical removal and the commit rename. -/
theorem flush_success_trace_order (st : Ver4DictBuffers) (env : FlushEnv) (d : FsPath)
    (hb : BufferWithExtendableBuffer) (fs : FS)
    (h : (Ver4DictBuffers.flushHeaderAndDictBuffers st env d hb fs).ok = true) :
    (Ver4DictBuffers.flushHeaderAndDictBuffers st env d hb fs).trace =
      (if fsExistsDir fs (tmpDirOf d) then [FlushEvent.removeDir (tmpDirOf d)]
       else []) ++
        FlushEvent.makeDir (tmpDirOf d) ::
          (stagedFilePaths d).map FlushEvent.writeFile ++
        [FlushEvent.removeDir d, FlushEvent.renameDir (tmpDirOf d) d] ∧
    stagedFilePaths d =
      [getFilePathWithSuffix (dictTargetPath d) HEADER_FILE_EXTENSION,
       getFilePathWithSuffix (dictTargetPath d) TRIE_FILE_EXTENSION,
       getFilePathWithSuffix (dictTargetPath d) TERMINAL_LOOKUP_TABLE_FILE_EXTENSION,
       getFilePathWithSuffix (dictTargetPath d) PROBABILITY_FILE_EXTENSION,
       getFilePathWithSuffix (dictTargetPath d) BIGRAM_FILE_EXTENSION,
       getFilePathWithSuffix (dictTargetPath d) SHORTCUT_FILE_EXTENSION] ∧
    dictTargetPath d = getFilePath (tmpDirOf d) (getBasename d) := by
  refine ⟨?_, rfl, rfl⟩
  rcases flush_stale_cases st env d hb fs with ⟨_, _, hEq⟩ | ⟨_, hEq⟩
  · rw [hEq] at h
    cases h
  · rw [hEq] at h ⊢
    rcases flushAfterStaleCheck_cases st env d hb
        (if fsExistsDir fs (tmpDirOf d) then fsRemoveSubtree fs (tmpDirOf d) else fs)
        (if fsExistsDir fs (tmpDirOf d) then [FlushEvent.removeDir (tmpDirOf d)] else [])
      with ⟨_, h2⟩ | ⟨_, S, hS, h2⟩
    · rw [h2] at h
      cases h
    · subst hS
      rcases h2 with ⟨_, h3⟩ | ⟨_, _, h3⟩ | ⟨_, _, _, h3⟩ | ⟨hs1, _, _, h3⟩
      · rw [h3] at h
        cases h
      · rw [h3] at h
        cases h
      · rw [h3] at h
        cases h
      · rw [h3]
        rw [stage_trace_eq_staged_map st env d hb _ hs1]

/-- Witness for C8: a fully successful flush at concrete inputs. -/
theorem flush_success_trace_order_witness :
    (Ver4DictBuffers.flushHeaderAndDictBuffers st0 envAllOk dPath0 hbB0 fs0).trace =
      (if fsExistsDir fs0 (tmpDirOf dPath0) then [FlushEvent.removeDir (tmpDirOf dPath0)]
       else []) ++
        FlushEvent.makeDir (tmpDirOf dPath0) ::
          (stagedFilePaths dPath0).map FlushEvent.writeFile ++
        [FlushEvent.removeDir dPath0, FlushEvent.renameDir (tmpDirOf dPath0) dPath0] ∧
    stagedFilePaths dPath0 =
      [getFilePathWithSuffix (dictTargetPath dPath0) HEADER_FILE_EXTENSION,
       getFilePathWithSuffix (dictTargetPath dPath0) TRIE_FILE_EXTENSION,
       getFilePathWithSuffix (dictTargetPath dPath0) TERMINAL_LOOKUP_TABLE_FILE_EXTENSION,
       getFilePathWithSuffix (dictTargetPath dPath0) PROBABILITY_FILE_EXTENSION,
       getFilePathWithSuffix (dictTargetPath dPath0) BIGRAM_FILE_EXTENSION,
       getFilePathWithSuffix (dictTargetPath dPath0) SHORTCUT_FILE_EXTENSION] ∧
    dictTargetPath dPath0 = getFilePath (tmpDirOf dPath0) (getBasename dPath0) :=
  flush_success_trace_order st0 envAllOk dPath0 hbB0 fs0 (by decide)
